import Mathlib

/-!
# evdevgrab: a verification development

A shallow embedding of `src/evdevgrab.c`.

* Pointers are natural numbers, `0` is `NULL`.
* C `int` values are integers.
* The heap of `struct Device` objects is a partial map from addresses to records.
* Calls into libc, the kernel and libevdev are answered by explicit scripts
  (the results the outside world gives), and every externally visible step is
  appended to a trace of `Action`s.
* Loops over pointers take a fuel argument; `none` means that the fuel ran out
  (or that an unallocated address was dereferenced).
* A run whose scripted answers end before the process exits is reported with
  exit status `none`.
-/

namespace Evdevgrab

/-! ## Constants of the headers the program includes -/

/-- The `MAX_EVENTS` constant of line 15. -/
def MAX_EVENTS : Nat := 10

/-- The errno value `EAGAIN` of Linux. -/
def EAGAIN : Int := 11

/-- The errno value `ENODEV` of Linux. -/
def ENODEV : Int := 19

/-- Value of `LIBEVDEV_READ_STATUS_SUCCESS` in `libevdev.h`. -/
def LIBEVDEV_READ_STATUS_SUCCESS : Int := 0

/-- Value of `LIBEVDEV_READ_STATUS_SYNC` in `libevdev.h`. -/
def LIBEVDEV_READ_STATUS_SYNC : Int := 1

/-- The read flags of `enum libevdev_read_flag`: the mode in which one decode
attempt is requested. -/
inductive ReadFlag where
  | SYNC
  | NORMAL
  | FORCE_SYNC
  | BLOCKING
deriving DecidableEq

/-! ## The decode loop `next_event` (lines 178-207) -/

/-- The three fields of `struct input_event` that the program prints. -/
structure input_event where
  type : Nat
  code : Nat
  value : Int
deriving DecidableEq

/-- One answer of `libevdev_next_event`: its return value and the event it stored
through its `ev` argument (`none` when the call left `ev` untouched). -/
structure DecodeResult where
  rc : Int
  ev : Option input_event
deriving DecidableEq

/-- A line written to standard output by `next_event`. The `event` line prints the
local variable `ev`; `none` stands for a variable that was never written. -/
inductive Output where
  | status_success
  | status_sync
  | event (ev : Option input_event)
deriving DecidableEq

/-- What one call of `next_event` did: the mode requested at each decode attempt,
the lines printed, and the value returned. -/
structure NextEventRun where
  flags : List ReadFlag
  out : List Output
  ret : Int
deriving DecidableEq

/-- The lines printed by the `switch` of lines 185-198 for a status `rc`. -/
def status_lines (verbose : Bool) (rc : Int) : List Output :=
  if rc = LIBEVDEV_READ_STATUS_SUCCESS then
    (if verbose then [Output.status_success] else [])
  else if rc = LIBEVDEV_READ_STATUS_SYNC then
    (if verbose then [Output.status_sync] else [])
  else if rc = -EAGAIN then []
  else []

/-- The `while (!(rc < 0))` loop of lines 182-204. The list holds the answers the
decoder gives to the successive attempts; `rc` and `ev` are the local variables.
Each iteration requests one decode with `LIBEVDEV_READ_FLAG_NORMAL`, runs the
`switch`, and then prints the `event:` line. The result is `none` when the loop
asks for more answers than the list has. -/
def next_event_loop (verbose : Bool) :
    List DecodeResult → Int → Option input_event → Option (List ReadFlag × List Output)
  | [], rc, _ => if rc < 0 then some ([], []) else none
  | r :: rest, rc, ev =>
    if rc < 0 then some ([], [])
    else
      let ev1 := match r.ev with
        | some e => some e
        | none => ev
      match next_event_loop verbose rest r.rc ev1 with
      | none => none
      | some (fs, os) =>
        some (ReadFlag.NORMAL :: fs, status_lines verbose r.rc ++ Output.event ev1 :: os)

/-- The function `next_event`: `rc` starts at `0`, `ev` is not set, the loop runs,
and line 206 returns `0`. -/
def next_event (results : List DecodeResult) (verbose : Bool) : Option NextEventRun :=
  match next_event_loop verbose results 0 none with
  | none => none
  | some (fs, os) => some { flags := fs, out := os, ret := 0 }

/-- Number of `event:` lines among the output. -/
def event_records : List Output → Nat
  | [] => 0
  | Output.event _ :: os => event_records os + 1
  | _ :: os => event_records os

/-- Number of decode attempts that returned a non-negative status. -/
def nonneg_attempts (results : List DecodeResult) : Nat :=
  (results.filter (fun r => decide (0 ≤ r.rc))).length

/-! ## Device handles and the heap -/

/-- The record `struct Device` of lines 35-40. `device_path` is `none` for `NULL`
and otherwise holds the characters of the copied string; `device` is `none` for
`NULL` and otherwise the address of the libevdev object; `next` is `0` for `NULL`. -/
structure Device where
  device_path : Option String
  device_fd : Int
  device : Option Nat
  next : Nat
deriving DecidableEq

/-- The heap of `struct Device` objects: address to record, `none` where nothing
is allocated. -/
abbrev Heap := Nat → Option Device

/-- The heap without any allocated handle. -/
def Heap.empty : Heap := fun _ => none

/-- Store a record at an address. -/
def Heap.set (h : Heap) (a : Nat) (d : Device) : Heap :=
  fun x => if x = a then some d else h x

/-- Every externally visible step of the program. -/
inductive Action where
  | free_path (path : String)
  | libevdev_free (dev : Nat)
  | close (fd : Int)
  | epoll_create1 (ret : Int)
  | print_device (path : Option String)
  | open_device (path : Option String) (ret : Int)
  | libevdev_new_from_fd (fd : Int) (ret : Int)
  | epoll_ctl_add (epfd : Int) (fd : Int) (data : Nat) (ret : Int)
  | libevdev_grab (dev : Option Nat) (ret : Int)
  | init_device (d : Nat) (ret : Int)
  | signalfd (ret : Int)
  | sigprocmask (ret : Int)
  | block_signals (ret : Int)
  | epoll_wait (nfds : Int)
  | next_event (d : Nat) (run : NextEventRun)
  | log_next_event_failed (rc : Int)
  | cleanup
  | exit (status : Int)
deriving DecidableEq

/-- The function `free_device` (lines 56-71): each of the three fields is released
only when it does not already hold its cleared value. -/
def free_device (device : Device) : Device × List Action :=
  let t1 := match device.device_path with
    | some p => [Action.free_path p]
    | none => []
  let t2 := match device.device with
    | some dev => [Action.libevdev_free dev]
    | none => []
  let t3 := if device.device_fd ≠ -1 then [Action.close device.device_fd] else []
  ({ device_path := none, device_fd := -1, device := none, next := device.next },
   t1 ++ t2 ++ t3)

/-- The length `strlen(s + off)` of a C string given by its content before the
terminating NUL, counted in bytes. It is `none` when `s + off` points past the
terminator, where the read is outside the string. -/
def strlen_at (s : String) (off : Nat) : Option Nat :=
  if off ≤ s.utf8ByteSize then some (s.utf8ByteSize - off) else none

/-- Result of `create`: the return value, the pointer stored through `device`
(`0` when nothing was stored), the heap, and the number of bytes requested from
`malloc` for the copy of the path (`none` when that call was not reached). -/
structure CreateResult where
  rc : Int
  d : Nat
  heap : Heap
  path_bytes : Option Nat

/-- The function `create` (lines 73-95). `malloc_d` is the answer of the first
`malloc` (`0` for `NULL`), `malloc_path` tells whether the second one succeeded.
The size passed to the second `malloc` is `strlen(device_path+1)` as on line 81. -/
def create (h : Heap) (malloc_d : Nat) (malloc_path : Bool) (device_path : String) :
    Option CreateResult :=
  if malloc_d = 0 then some { rc := -1, d := 0, heap := h, path_bytes := none }
  else
    match strlen_at device_path 1 with
    | none => none
    | some n =>
      if malloc_path = false then some { rc := -1, d := 0, heap := h, path_bytes := some n }
      else
        some { rc := 0, d := malloc_d,
               heap := h.set malloc_d
                 { device_path := some device_path, device_fd := 0, device := none, next := 0 },
               path_bytes := some n }

/-- The `do ... while (head != NULL)` loop of `free_devices` (lines 123-128). -/
def free_devices_loop : Nat → Heap → Nat → Option (Heap × List Action)
  | 0, _, _ => none
  | fuel + 1, h, head =>
    match h head with
    | none => none
    | some d =>
      let r := free_device d
      let h1 := h.set head r.1
      if d.next ≠ 0 then
        match free_devices_loop fuel h1 d.next with
        | none => none
        | some (h2, t) => some (h2, r.2 ++ t)
      else some (h1, r.2)

/-- The function `free_devices` (lines 119-130). -/
def free_devices (fuel : Nat) (h : Heap) (head : Nat) : Option (Heap × List Action) :=
  if head ≠ 0 then free_devices_loop fuel h head else some (h, [])

/-- The function `cleanup` (lines 240-252): returns the heap, `*epfd`, `*signal_fd`
and the steps taken. -/
def cleanup (fuel : Nat) (h : Heap) (head : Nat) (epfd signal_fd : Int) :
    Option (Heap × Int × Int × List Action) :=
  match free_devices fuel h head with
  | none => none
  | some (h1, t) =>
    let e := if ¬ (epfd < 0) then ((-1 : Int), [Action.close epfd]) else (epfd, [])
    let s := if ¬ (signal_fd < 0) then ((-1 : Int), [Action.close signal_fd]) else (signal_fd, [])
    some (h1, e.1, s.1, t ++ e.2 ++ s.2)

/-- The addresses `l` are exactly the handles linked from `a` through `next` up to
`NULL`, all of them allocated. -/
def is_chain (h : Heap) : Nat → List Nat → Bool
  | a, [] => decide (a = 0)
  | a, x :: xs =>
    decide (a = x) && decide (x ≠ 0) &&
      (match h x with
       | none => false
       | some d => is_chain h d.next xs)

/-- A handle in the state `free_device` leaves it in. -/
def released (d : Device) : Prop :=
  d.device_path = none ∧ d.device = none ∧ d.device_fd = -1

/-! ## The epoll data word -/

/-- Write the member `fd` of the union `epoll_data_t`, kept as a 64-bit word: on
Linux for x86-64 the `int` occupies the low four bytes, the other four stay as
they were. -/
def data_set_fd (w : Nat) (fd : Int) : Nat :=
  (w / 2 ^ 32) * 2 ^ 32 + (fd % 2 ^ 32).toNat

/-- Read the member `fd` of the union: the low four bytes as a signed `int`. -/
def data_fd (w : Nat) : Int :=
  if w % 2 ^ 32 < 2 ^ 31 then ((w % 2 ^ 32 : Nat) : Int) else ((w % 2 ^ 32 : Nat) : Int) - 2 ^ 32

/-- Read the member `ptr` of the union: the whole word. -/
def data_ptr (w : Nat) : Nat := w

/-- The data word `epoll_add` (lines 132-144) hands to `epoll_ctl`: `stack` is the
content of the local `ev.data` before the assignments, line 136 writes `fd`, and
line 140 writes `ptr` over the same union when `ptr` is not `NULL`. -/
def epoll_add (stack : Nat) (fd : Int) (ptr : Nat) : Nat :=
  let w := data_set_fd stack fd
  if ptr ≠ 0 then ptr else w

/-- The test of line 347, `events[n].data.fd == signal_fd`. -/
def is_termination_request (data : Nat) (signal_fd : Int) : Bool :=
  decide (data_fd data = signal_fd)

/-! ## Device start-up -/

/-- The answers of the outside world to the calls `init_device` makes for one
handle: `open`, `libevdev_new_from_fd` (return value and the object it creates),
`epoll_ctl` and `libevdev_grab`. -/
structure InitOutcome where
  open_fd : Int
  new_rc : Int
  new_dev : Nat
  epoll_rc : Int
  grab_rc : Int
deriving DecidableEq

/-- The function called `initialize` in the source (lines 146-176), for the handle
at address `self` whose record is `device`. Returns the return value, the updated
record and the steps taken. -/
def init_device (o : InitOutcome) (stack : Nat) (device : Device) (self : Nat)
    (epfd : Int) (grab : Bool) : Int × Device × List Action :=
  let d1 := { device with device_fd := o.open_fd }
  let t1 := [Action.open_device device.device_path o.open_fd]
  if d1.device_fd < 0 then (-1, d1, t1)
  else
    let d2 := if o.new_rc < 0 then d1 else { d1 with device := some o.new_dev }
    let t2 := t1 ++ [Action.libevdev_new_from_fd d1.device_fd o.new_rc]
    if o.new_rc < 0 then (o.new_rc, d2, t2)
    else
      let t3 := t2 ++ [Action.epoll_ctl_add epfd d2.device_fd
        (epoll_add stack d2.device_fd self) o.epoll_rc]
      if o.epoll_rc < 0 then (o.epoll_rc, d2, t3)
      else if grab then
        let t4 := t3 ++ [Action.libevdev_grab d2.device o.grab_rc]
        if o.grab_rc < 0 then (o.grab_rc, d2, t4) else (0, d2, t4)
      else (0, d2, t3)

/-- The answers of the outside world during one run of `main`. `uninit_rc` is the
indeterminate initial value of the local `rc`, `stack` the indeterminate content
of the local `ev.data` of `epoll_add`. -/
structure World where
  epoll_create1 : Int
  uninit_rc : Int
  stack : Nat
  init : Nat → InitOutcome
  signalfd : Int
  sigprocmask : Int
  epoll_ctl_signal : Int

/-- The `for` loop of lines 315-324, from the handle `d` on, with the local `rc`.
Returns the final `rc`, the heap and the steps taken. -/
def init_loop (w : World) (verbose grab : Bool) (epfd : Int) :
    Nat → Heap → Nat → Int → Option (Int × Heap × List Action)
  | 0, _, _, _ => none
  | fuel + 1, h, d, rc =>
    if d = 0 then some (rc, h, [])
    else
      match h d with
      | none => none
      | some dev =>
        let t0 := if verbose then [Action.print_device dev.device_path] else []
        let r := init_device (w.init d) w.stack dev d epfd grab
        let h1 := h.set d r.2.1
        let t1 := t0 ++ r.2.2 ++ [Action.init_device d r.1]
        if r.1 < 0 then some (r.1, h1, t1)
        else
          match init_loop w verbose grab epfd fuel h1 r.2.1.next r.1 with
          | none => none
          | some (rc2, h2, t2) => some (rc2, h2, t1 ++ t2)

/-- The function `block_signals` (lines 209-238): the return value and the steps. -/
def block_signals (w : World) (epfd : Int) : Int × List Action :=
  let signal_fd := w.signalfd
  let t1 := [Action.signalfd signal_fd]
  if signal_fd = -1 then (-1, t1)
  else
    let t2 := t1 ++ [Action.sigprocmask w.sigprocmask]
    if w.sigprocmask < 0 then (w.sigprocmask, t2 ++ [Action.close signal_fd])
    else
      let t3 := t2 ++ [Action.epoll_ctl_add epfd signal_fd (epoll_add w.stack signal_fd 0)
        w.epoll_ctl_signal]
      if w.epoll_ctl_signal < 0 then (w.epoll_ctl_signal, t3 ++ [Action.close signal_fd])
      else (signal_fd, t3)

/-! ## The run of `main` -/

/-- The state a run of `main` ends in: exit status, heap, the two descriptors, and
all steps taken. The status is `none` when the scripted answers of `epoll_wait` or
of a decoder ran out before the process exited: it is then still waiting. -/
structure MainRun where
  status : Option Int
  heap : Heap
  epfd : Int
  signal_fd : Int
  trace : List Action

/-- The statement pair `cleanup(...); exit(1);` that lines 310-311, 326-327,
333-334, 342-343 and 348-349 all consist of, after the steps `pre`. -/
def cleanup_exit (fuel : Nat) (h : Heap) (head : Nat) (epfd signal_fd : Int)
    (pre : List Action) : Option MainRun :=
  match cleanup fuel h head epfd signal_fd with
  | none => none
  | some (h1, e1, s1, t) =>
    some { status := some 1, heap := h1, epfd := e1, signal_fd := s1,
           trace := pre ++ Action.cleanup :: t ++ [Action.exit 1] }

/-- The run of a process that is still waiting after the steps `pre`. -/
def waiting (h : Heap) (epfd signal_fd : Int) (pre : List Action) : MainRun :=
  { status := none, heap := h, epfd := epfd, signal_fd := signal_fd, trace := pre }

/-- The data word the kernel holds for a descriptor: the one of the first
`epoll_ctl` call in the trace that added it without failing. -/
def registered_data : List Action → Int → Option Nat
  | [], _ => none
  | Action.epoll_ctl_add _ fd data ret :: t, x =>
    if fd = x ∧ ¬ (ret < 0) then some data else registered_data t x
  | _ :: t, x => registered_data t x

/-- One ready descriptor of an `epoll_wait` round, with the answers the decoder
of that descriptor gives if it is asked. -/
structure Ready where
  fd : Int
  decode : List DecodeResult
deriving DecidableEq

/-- One answer of `epoll_wait`: failure (`-1`), or the ready descriptors. -/
inductive WaitResult where
  | error
  | ready (fds : List Ready)
deriving DecidableEq

/-- The `for` loop of lines 346-360 over the events of one round. `regs` is the
trace up to the loop, from which the data words held by the kernel are read. The
result is the run when the loop exits the process (or when the answers of a
decoder run out, or the round names a descriptor that was never added), else the
steps taken. -/
def dispatch (fuel : Nat) (verbose : Bool) (h : Heap) (head : Nat) (epfd signal_fd : Int)
    (regs : List Action) : List Ready → List Action → Option (MainRun ⊕ List Action)
  | [], pre => some (Sum.inr pre)
  | e :: es, pre =>
    match registered_data regs e.fd with
    | none => some (Sum.inl (waiting h epfd signal_fd pre))
    | some data =>
      if is_termination_request data signal_fd then
        match cleanup_exit fuel h head epfd signal_fd pre with
        | none => none
        | some r => some (Sum.inl r)
      else if data_ptr data ≠ 0 then
        match next_event e.decode verbose with
        | none => some (Sum.inl (waiting h epfd signal_fd pre))
        | some run =>
          let t := if run.ret < 0 then [Action.log_next_event_failed run.ret] else []
          dispatch fuel verbose h head epfd signal_fd regs es
            (pre ++ Action.next_event (data_ptr data) run :: t)
      else dispatch fuel verbose h head epfd signal_fd regs es pre

/-- The `while (true)` loop of lines 337-361 over the successive answers of
`epoll_wait`, of which at most `MAX_EVENTS` events are taken per round. When the
answers run out the process stays blocked in `epoll_wait`. -/
def event_loop (fuel : Nat) (verbose : Bool) (h : Heap) (head : Nat) (epfd signal_fd : Int)
    (regs : List Action) : List WaitResult → List Action → Option MainRun
  | [], pre => some (waiting h epfd signal_fd pre)
  | WaitResult.error :: _, pre =>
    cleanup_exit fuel h head epfd signal_fd (pre ++ [Action.epoll_wait (-1)])
  | WaitResult.ready fds :: rest, pre =>
    let evs := fds.take MAX_EVENTS
    match dispatch fuel verbose h head epfd signal_fd regs evs
        (pre ++ [Action.epoll_wait evs.length]) with
    | none => none
    | some (Sum.inl r) => some r
    | some (Sum.inr t) => event_loop fuel verbose h head epfd signal_fd regs rest t

/-- The record `struct arguments` of lines 29-33. -/
structure arguments where
  verbose : Bool
  no_grab : Bool
  head : Nat
deriving DecidableEq

/-- The function `main` from line 307 on, for the registry `args` that argument
parsing left in the heap `h`. With an empty registry control reaches the end of
`main`, which gives exit status `0`. -/
def main (fuel : Nat) (h : Heap) (args : arguments) (w : World) (waits : List WaitResult) :
    Option MainRun :=
  let epfd := w.epoll_create1
  let t0 := [Action.epoll_create1 epfd]
  if epfd < 0 then cleanup_exit fuel h args.head epfd (-1) t0
  else if args.head ≠ 0 then
    match init_loop w args.verbose (!args.no_grab) epfd fuel h args.head w.uninit_rc with
    | none => none
    | some (rc, h1, t1) =>
      if rc < 0 then cleanup_exit fuel h1 args.head epfd (-1) (t0 ++ t1)
      else
        let b := block_signals w epfd
        let t2 := t0 ++ t1 ++ b.2 ++ [Action.block_signals b.1]
        if b.1 < 0 then cleanup_exit fuel h1 args.head epfd b.1 t2
        else event_loop fuel args.verbose h1 args.head epfd b.1 t2 waits t2
  else some { status := some 0, heap := h, epfd := epfd, signal_fd := -1, trace := t0 }

/-! ## Argument parsing -/

/-- The resync discipline, as a test on one call: the attempt that follows
an attempt answered with the sync status is requested in resync mode. -/
def resync_requested_after_sync : List DecodeResult → List ReadFlag → Bool
  | r :: rest, _ :: g :: fs =>
    (if r.rc = LIBEVDEV_READ_STATUS_SYNC then decide (g = ReadFlag.SYNC) else true) &&
      resync_requested_after_sync rest (g :: fs)
  | _, _ => true

/-- Heap `h1` keeps every handle of `h` allocated with the same `next` pointer. -/
def next_preserved (h h1 : Heap) : Prop :=
  ∀ a d, h a = some d → ∃ d1, h1 a = some d1 ∧ d1.next = d.next

/-- A world in which every call succeeds: epoll gets descriptor `3`, a device is
opened on descriptor `4`, and `signalfd` returns the given descriptor. -/
def run_world (signal_fd : Int) : World :=
  { epoll_create1 := 3, uninit_rc := 0, stack := 0,
    init := (fun _ => { open_fd := 4, new_rc := 0, new_dev := 4096, epoll_rc := 0, grab_rc := 0 }),
    signalfd := signal_fd, sigprocmask := 0, epoll_ctl_signal := 0 }

/-- A registry of one handle at address `0x560000000010`, as `create` leaves it. -/
def one_device_heap : Heap :=
  Heap.empty.set 0x560000000010
    { device_path := some "/dev/input/event2", device_fd := 0, device := none, next := 0 }

/-- The `arguments` record for `one_device_heap`. -/
def one_device_args : arguments :=
  { verbose := false, no_grab := false, head := 0x560000000010 }

/-- A key press followed by the end of the available data. -/
def key_press_then_no_data : List DecodeResult :=
  [{ rc := 0, ev := some { type := 1, code := 30, value := 1 } }, { rc := -EAGAIN, ev := none }]

/-- A registry of two handles: an opened one at `8` and an unopened one at `16`. -/
def two_handle_heap : Heap :=
  (Heap.empty.set 8
    { device_path := some "/dev/input/event2", device_fd := 4, device := some 4096, next := 16 }).set
    16 { device_path := some "/dev/input/event3", device_fd := 0, device := none, next := 0 }

/-- A sync status, then a success, then the end of the available data. -/
def sync_then_success : List DecodeResult :=
  [{ rc := LIBEVDEV_READ_STATUS_SYNC, ev := some { type := 0, code := 3, value := 0 } },
   { rc := LIBEVDEV_READ_STATUS_SUCCESS, ev := some { type := 1, code := 30, value := 1 } }]

/-! ## Theorems -/

theorem next_event_loop_stop (verbose : Bool) (rs : List DecodeResult) (rc : Int)
    (ev : Option input_event) (h : rc < 0) :
    next_event_loop verbose rs rc ev = some ([], []) := by
  cases rs <;> simp [next_event_loop, h]

theorem event_records_append (a b : List Output) :
    event_records (a ++ b) = event_records a + event_records b := by
  induction a with
  | nil => simp [event_records]
  | cons o os ih =>
    cases o <;> simp [event_records, ih]; omega

theorem event_records_status_lines (verbose : Bool) (rc : Int) :
    event_records (status_lines verbose rc) = 0 := by
  unfold status_lines
  split_ifs <;> simp [event_records]

theorem next_event_loop_spec (verbose : Bool) (pre : List DecodeResult) (neg : DecodeResult)
    (hpre : ∀ r ∈ pre, 0 ≤ r.rc) (hneg : neg.rc < 0) :
    ∀ (rc : Int) (ev : Option input_event), 0 ≤ rc →
      ∃ fs os, next_event_loop verbose (pre ++ [neg]) rc ev = some (fs, os) ∧
        fs = List.replicate (pre.length + 1) ReadFlag.NORMAL ∧
        event_records os = pre.length + 1 := by
  induction pre with
  | nil =>
    intro rc ev hrc
    have h0 : ¬ rc < 0 := not_lt.mpr hrc
    refine ⟨[ReadFlag.NORMAL], status_lines verbose neg.rc ++ [Output.event (match neg.ev with
        | some e => some e
        | none => ev)], ?_, rfl, ?_⟩
    · simp only [List.nil_append, next_event_loop, h0, hneg, if_false, if_true]
    · simp [event_records_append, event_records_status_lines, event_records]
  | cons r rest ih =>
    intro rc ev hrc
    have h0 : ¬ rc < 0 := not_lt.mpr hrc
    have hr : 0 ≤ r.rc := hpre r (List.mem_cons_self _ _)
    obtain ⟨fs, os, e1, e2, e3⟩ := ih (fun x hx => hpre x (List.mem_cons_of_mem _ hx)) r.rc
      (match r.ev with
        | some e => some e
        | none => ev) hr
    refine ⟨ReadFlag.NORMAL :: fs, status_lines verbose r.rc ++ Output.event (match r.ev with
        | some e => some e
        | none => ev) :: os, ?_, ?_, ?_⟩
    · simp only [List.cons_append, next_event_loop, h0, if_false, List.append_eq, e1]
    · simp [e2, List.replicate_succ]
    · simp [event_records_append, event_records_status_lines, event_records, e3]

theorem nonneg_attempts_spec (pre : List DecodeResult) (neg : DecodeResult)
    (hpre : ∀ r ∈ pre, 0 ≤ r.rc) (hneg : neg.rc < 0) :
    nonneg_attempts (pre ++ [neg]) = pre.length := by
  unfold nonneg_attempts
  rw [List.filter_append, List.length_append]
  have h1 : pre.filter (fun r => decide (0 ≤ r.rc)) = pre := by
    apply List.filter_eq_self.mpr
    intro a ha
    simpa using hpre a ha
  have h2 : [neg].filter (fun r => decide (0 ≤ r.rc)) = [] := by
    simp [List.filter, not_le.mpr hneg]
  rw [h1, h2]; simp

/-- Every complete call of `next_event` prints one `event:` line per decode
attempt, the failed last attempt included: one more than the attempts that
returned a non-negative status. -/
theorem next_event_records_eq_attempts (verbose : Bool) (pre : List DecodeResult)
    (neg : DecodeResult) (hpre : ∀ r ∈ pre, 0 ≤ r.rc) (hneg : neg.rc < 0) :
    ∃ run, next_event (pre ++ [neg]) verbose = some run ∧
      event_records run.out = nonneg_attempts (pre ++ [neg]) + 1 ∧
      run.flags = List.replicate (pre.length + 1) ReadFlag.NORMAL ∧ run.ret = 0 := by
  obtain ⟨fs, os, e1, e2, e3⟩ := next_event_loop_spec verbose pre neg hpre hneg 0 none le_rfl
  refine ⟨{ flags := fs, out := os, ret := 0 }, ?_, ?_, e2, rfl⟩
  · simp [next_event, e1]
  · simp [e3, nonneg_attempts_spec pre neg hpre hneg]

theorem next_event_ret_zero (rs : List DecodeResult) (verbose : Bool) (run : NextEventRun)
    (h : next_event rs verbose = some run) : run.ret = 0 := by
  unfold next_event at h
  split at h
  · simp at h
  · simp at h; rw [← h]

theorem Heap.set_same (h : Heap) (a : Nat) (d : Device) : (h.set a d) a = some d := by
  simp [Heap.set]

theorem Heap.set_other (h : Heap) (a x : Nat) (d : Device) (hx : x ≠ a) :
    (h.set a d) x = h x := by
  simp [Heap.set, hx]

theorem Heap.set_self (h : Heap) (a : Nat) (d : Device) (hd : h a = some d) :
    h.set a d = h := by
  funext x
  by_cases hx : x = a
  · subst hx; simp [Heap.set, hd]
  · simp [Heap.set, hx]

theorem is_chain_nil (h : Heap) (a : Nat) : is_chain h a [] = true ↔ a = 0 := by
  simp [is_chain]

theorem is_chain_cons (h : Heap) (a x : Nat) (xs : List Nat) :
    is_chain h a (x :: xs) = true ↔
      a = x ∧ x ≠ 0 ∧ ∃ d, h x = some d ∧ is_chain h d.next xs = true := by
  cases hx : h x with
  | none => simp [is_chain, hx]
  | some d => simp [is_chain, hx, and_assoc]

theorem next_preserved_refl (h : Heap) : next_preserved h h :=
  fun _ d hd => ⟨d, hd, rfl⟩

theorem next_preserved_trans {h h1 h2 : Heap} (p : next_preserved h h1)
    (q : next_preserved h1 h2) : next_preserved h h2 := by
  intro a d hd
  obtain ⟨d1, e1, n1⟩ := p a d hd
  obtain ⟨d2, e2, n2⟩ := q a d1 e1
  exact ⟨d2, e2, n2.trans n1⟩

theorem next_preserved_set (h : Heap) (a : Nat) (d d1 : Device) (hd : h a = some d)
    (hn : d1.next = d.next) : next_preserved h (h.set a d1) := by
  intro x dx hx
  by_cases e : x = a
  · subst e
    rw [hd] at hx
    cases hx
    exact ⟨d1, Heap.set_same h x d1, hn⟩
  · exact ⟨dx, by rw [Heap.set_other h a x d1 e]; exact hx, rfl⟩

theorem is_chain_of_next_preserved {h h1 : Heap} (p : next_preserved h h1) (l : List Nat) :
    ∀ a, is_chain h a l = true → is_chain h1 a l = true := by
  induction l with
  | nil => intro a ha; simpa [is_chain] using ha
  | cons x xs ih =>
    intro a ha
    rw [is_chain_cons] at ha ⊢
    obtain ⟨e, nz, d, hd, hc⟩ := ha
    obtain ⟨d1, e1, n1⟩ := p x d hd
    exact ⟨e, nz, d1, e1, by rw [n1]; exact ih _ hc⟩

theorem free_device_next (d : Device) : (free_device d).1.next = d.next := rfl

theorem free_device_released (d : Device) : released (free_device d).1 :=
  ⟨rfl, rfl, rfl⟩

theorem free_device_of_released (d : Device) (hd : released d) : free_device d = (d, []) := by
  obtain ⟨p, dv, fd⟩ := hd
  cases d
  simp only at p dv fd
  subst p dv fd
  simp [free_device]

theorem free_devices_loop_spec (l : List Nat) :
    ∀ (fuel : Nat) (h : Heap) (head : Nat), is_chain h head l = true → head ≠ 0 →
      l.length ≤ fuel →
      ∃ h1 t, free_devices_loop fuel h head = some (h1, t) ∧ next_preserved h h1 ∧
        (∀ a ∈ l, ∃ d, h1 a = some d ∧ released d) ∧ (∀ a, a ∉ l → h1 a = h a) := by
  induction l with
  | nil => intro fuel h head hc hz; simp [is_chain] at hc; exact absurd hc hz
  | cons x xs ih =>
    intro fuel h head hc hz hf
    rw [is_chain_cons] at hc
    obtain ⟨e, nz, d, hd, hc⟩ := hc
    subst e
    obtain ⟨n, rfl⟩ : ∃ n, fuel = n + 1 := ⟨fuel - 1, by simp at hf; omega⟩
    have hp := next_preserved_set h head d (free_device d).1 hd (free_device_next d)
    by_cases hn : d.next = 0
    · have hxs : xs = [] := by
        cases xs with
        | nil => rfl
        | cons y ys =>
          rw [is_chain_cons] at hc
          exact absurd (hc.1.symm.trans hn) hc.2.1
      subst hxs
      refine ⟨h.set head (free_device d).1, (free_device d).2, ?_, hp, ?_, ?_⟩
      · simp [free_devices_loop, hd, hn]
      · intro a ha
        simp at ha
        subst ha
        exact ⟨_, Heap.set_same _ _ _, free_device_released d⟩
      · intro a ha
        simp at ha
        exact Heap.set_other _ _ _ _ ha
    · have hc1 := is_chain_of_next_preserved hp xs _ hc
      obtain ⟨h1, t, e1, p1, r1, f1⟩ := ih n (h.set head (free_device d).1) d.next hc1 hn
        (by simp at hf; omega)
      refine ⟨h1, (free_device d).2 ++ t, ?_, next_preserved_trans hp p1, ?_, ?_⟩
      · simp [free_devices_loop, hd, hn, e1]
      · intro a ha
        by_cases hin : a ∈ xs
        · exact r1 a hin
        · have hax : a = head := by simpa [hin] using ha
          subst hax
          refine ⟨(free_device d).1, ?_, free_device_released d⟩
          rw [f1 a hin]; exact Heap.set_same _ _ _
      · intro a ha
        simp at ha
        rw [f1 a ha.2]
        exact Heap.set_other _ _ _ _ ha.1

theorem free_devices_loop_released (l : List Nat) :
    ∀ (fuel : Nat) (h : Heap) (head : Nat), is_chain h head l = true → head ≠ 0 →
      l.length ≤ fuel → (∀ a ∈ l, ∃ d, h a = some d ∧ released d) →
      free_devices_loop fuel h head = some (h, []) := by
  induction l with
  | nil => intro fuel h head hc hz; simp [is_chain] at hc; exact absurd hc hz
  | cons x xs ih =>
    intro fuel h head hc hz hf hr
    rw [is_chain_cons] at hc
    obtain ⟨e, nz, d, hd, hc⟩ := hc
    subst e
    obtain ⟨n, rfl⟩ : ∃ n, fuel = n + 1 := ⟨fuel - 1, by simp at hf; omega⟩
    obtain ⟨d0, hd0, rel⟩ := hr head (List.mem_cons_self _ _)
    rw [hd] at hd0
    cases hd0
    have hfd := free_device_of_released d rel
    have hs : h.set head d = h := Heap.set_self h head d hd
    by_cases hn : d.next = 0
    · simp [free_devices_loop, hd, hn, hfd, hs]
    · have := ih n h d.next hc hn (by simp at hf; omega)
        (fun a ha => hr a (List.mem_cons_of_mem _ ha))
      simp [free_devices_loop, hd, hn, hfd, hs, this]

theorem free_devices_spec (l : List Nat) (fuel : Nat) (h : Heap) (head : Nat)
    (hc : is_chain h head l = true) (hf : l.length ≤ fuel) :
    ∃ h1 t, free_devices fuel h head = some (h1, t) ∧ next_preserved h h1 ∧
      (∀ a ∈ l, ∃ d, h1 a = some d ∧ released d) ∧ (∀ a, a ∉ l → h1 a = h a) := by
  by_cases hz : head = 0
  · subst hz
    have : l = [] := by
      cases l with
      | nil => rfl
      | cons x xs => rw [is_chain_cons] at hc; exact absurd hc.1.symm hc.2.1
    subst this
    exact ⟨h, [], by simp [free_devices], next_preserved_refl h, by simp, fun _ _ => rfl⟩
  · obtain ⟨h1, t, e, r⟩ := free_devices_loop_spec l fuel h head hc hz hf
    exact ⟨h1, t, by simp [free_devices, hz, e], r⟩

/-- C5: on a registry whose handles are linked from `head` up to `NULL`, a second
call of `free_devices` leaves the state of the first call unchanged and takes no
step at all (no `close`, no `free`, no `libevdev_free`), every handle being
already cleared to `device_path = NULL`, `device = NULL`, `device_fd = -1`. -/
theorem free_devices_twice (h : Heap) (head : Nat) (l : List Nat) (fuel : Nat)
    (hc : is_chain h head l = true) (hf : l.length ≤ fuel) :
    ∃ h1 t, free_devices fuel h head = some (h1, t) ∧
      free_devices fuel h1 head = some (h1, []) ∧
      ∀ a ∈ l, ∃ d, h1 a = some d ∧
        d.device_path = none ∧ d.device = none ∧ d.device_fd = -1 := by
  obtain ⟨h1, t, e, p, r, _⟩ := free_devices_spec l fuel h head hc hf
  refine ⟨h1, t, e, ?_, r⟩
  by_cases hz : head = 0
  · simp [free_devices, hz]
  · have hc1 := is_chain_of_next_preserved p l head hc
    simp [free_devices, hz, free_devices_loop_released l fuel h1 head hc1 hz hf r]

theorem cleanup_exit_status (fuel : Nat) (h : Heap) (head : Nat) (epfd sfd : Int)
    (pre : List Action) (r : MainRun) (e : cleanup_exit fuel h head epfd sfd pre = some r) :
    r.status = some 1 := by
  unfold cleanup_exit at e
  split at e
  · simp at e
  · simp only [Option.some.injEq] at e
    rw [← e]

/-- C1, at the failing input: when the only decode attempt of a call finds no data
(`-EAGAIN`), `next_event` still prints one `event:` line (from the never written
`ev`), although no attempt returned a non-negative status: one record against
zero such attempts. -/
theorem next_event_record_on_no_data :
    next_event [{ rc := -EAGAIN, ev := none }] false =
        some { flags := [ReadFlag.NORMAL], out := [Output.event none], ret := 0 } ∧
      event_records [Output.event none] = 1 ∧
      nonneg_attempts [{ rc := -EAGAIN, ev := none }] = 0 := by
  decide

/-- C3, at the failing input: when the decoder fails with `-ENODEV`, `next_event`
returns `0`, and the run of `main` goes on to the next `epoll_wait` without the
step that logs a failed `next_event`. -/
theorem next_event_hides_decode_error :
    next_event [{ rc := -ENODEV, ev := none }] false =
        some { flags := [ReadFlag.NORMAL], out := [Output.event none], ret := 0 } ∧
      (main 2 one_device_heap one_device_args (run_world 5)
          [WaitResult.ready [{ fd := 4, decode := [{ rc := -ENODEV, ev := none }] }],
           WaitResult.error]).map (fun r => (r.status, r.trace)) =
        some (some 1,
          [Action.epoll_create1 3,
           Action.open_device (some "/dev/input/event2") 4,
           Action.libevdev_new_from_fd 4 0,
           Action.epoll_ctl_add 3 4 0x560000000010 0,
           Action.libevdev_grab (some 4096) 0,
           Action.init_device 0x560000000010 0,
           Action.signalfd 5,
           Action.sigprocmask 0,
           Action.epoll_ctl_add 3 5 5 0,
           Action.block_signals 5,
           Action.epoll_wait 1,
           Action.next_event 0x560000000010
             { flags := [ReadFlag.NORMAL], out := [Output.event none], ret := 0 },
           Action.epoll_wait (-1),
           Action.cleanup,
           Action.free_path "/dev/input/event2",
           Action.libevdev_free 4096,
           Action.close 4,
           Action.close 3,
           Action.close 5,
           Action.exit 1]) := by
  decide

/-- C7, at the failing input: with a handle at address `0x560000000010` and
`signal_fd = 16`, the test of line 347 takes the notification of the device for
the control source, the low four bytes of the pointer being `16`, and `main`
tears down and exits on the first input event without decoding it. -/
theorem device_event_taken_for_termination :
    (∀ stack fd, is_termination_request (epoll_add stack fd 0x560000000010) 16 = true) ∧
      (main 2 one_device_heap one_device_args (run_world 16)
          [WaitResult.ready [{ fd := 4, decode := key_press_then_no_data }]]).map
          (fun r => (r.status, r.trace)) =
        some (some 1,
          [Action.epoll_create1 3,
           Action.open_device (some "/dev/input/event2") 4,
           Action.libevdev_new_from_fd 4 0,
           Action.epoll_ctl_add 3 4 0x560000000010 0,
           Action.libevdev_grab (some 4096) 0,
           Action.init_device 0x560000000010 0,
           Action.signalfd 16,
           Action.sigprocmask 0,
           Action.epoll_ctl_add 3 16 16 0,
           Action.block_signals 16,
           Action.epoll_wait 1,
           Action.cleanup,
           Action.free_path "/dev/input/event2",
           Action.libevdev_free 4096,
           Action.close 4,
           Action.close 3,
           Action.close 16,
           Action.exit 1]) := by
  refine ⟨fun stack fd => by simp [is_termination_request, epoll_add, data_fd], by decide⟩

/-- C9, at the failing input: a handle made by `create` and never opened holds
`device_fd = 0`, so `free_device` closes descriptor `0`, which the handle did not
open. -/
theorem free_device_closes_unopened_descriptor :
    (create Heap.empty 8 true "/dev/input/event2").bind
        (fun c => (c.heap c.d).map (fun d => (d.device_fd, (free_device d).2))) =
      some (0, [Action.free_path "/dev/input/event2", Action.close 0]) := by
  decide

/-- C10, at the failing input: for the path `/dev/input/event2` of 17 bytes,
`create` requests `strlen(device_path+1) = 16` bytes, fewer than the 18 bytes that
the copy with its terminating NUL takes. -/
theorem create_path_allocation_too_small :
    (create Heap.empty 8 true "/dev/input/event2").bind (fun c => c.path_bytes) = some 16 ∧
      "/dev/input/event2".utf8ByteSize = 17 ∧ ¬ (17 + 1 ≤ 16) := by
  decide

/-- C2 fails as stated: in a call whose first attempt returns the sync status, the
attempts that follow are requested with `LIBEVDEV_READ_FLAG_NORMAL`, not in resync
mode. -/
theorem next_event_no_resync_request :
    (next_event [{ rc := LIBEVDEV_READ_STATUS_SYNC, ev := some { type := 0, code := 3, value := 0 } },
                 { rc := LIBEVDEV_READ_STATUS_SUCCESS, ev := some { type := 1, code := 30, value := 1 } },
                 { rc := -EAGAIN, ev := none }] false).map (fun r => r.flags) =
        some [ReadFlag.NORMAL, ReadFlag.NORMAL, ReadFlag.NORMAL] ∧
      resync_requested_after_sync
        [{ rc := LIBEVDEV_READ_STATUS_SYNC, ev := some { type := 0, code := 3, value := 0 } },
         { rc := LIBEVDEV_READ_STATUS_SUCCESS, ev := some { type := 1, code := 30, value := 1 } },
         { rc := -EAGAIN, ev := none }]
        [ReadFlag.NORMAL, ReadFlag.NORMAL, ReadFlag.NORMAL] = false := by
  decide

/-- C2 as amended: in every complete call of `next_event` each decode attempt, also
one that follows an attempt answered with the sync status, is requested in normal
mode (`LIBEVDEV_READ_FLAG_NORMAL`), one request per answer of the decoder. -/
theorem next_event_always_normal_mode (verbose : Bool) (pre : List DecodeResult)
    (neg : DecodeResult) (hpre : ∀ r ∈ pre, 0 ≤ r.rc) (hneg : neg.rc < 0) :
    ∃ run, next_event (pre ++ [neg]) verbose = some run ∧
      run.flags.length = pre.length + 1 ∧ ∀ f ∈ run.flags, f = ReadFlag.NORMAL := by
  obtain ⟨fs, os, e1, e2, _⟩ := next_event_loop_spec verbose pre neg hpre hneg 0 none le_rfl
  refine ⟨{ flags := fs, out := os, ret := 0 }, by simp [next_event, e1], ?_, ?_⟩
  · simp [e2]
  · intro f hf
    simp only [e2] at hf
    exact List.eq_of_mem_replicate hf

/-- Witness for C2 as amended: a call that meets the sync status, then a success,
then the end of the data. -/
theorem next_event_always_normal_mode_witness :
    (∀ r ∈ sync_then_success, 0 ≤ r.rc) ∧ (-EAGAIN : Int) < 0 ∧
      ∃ run, next_event (sync_then_success ++ [{ rc := -EAGAIN, ev := none }]) true = some run ∧
        run.flags.length = sync_then_success.length + 1 ∧
        ∀ f ∈ run.flags, f = ReadFlag.NORMAL :=
  ⟨by decide, by decide,
    next_event_always_normal_mode true sync_then_success { rc := -EAGAIN, ev := none }
      (by decide) (by decide)⟩

/-- Witness for C5: a registry with one opened and one unopened handle. -/
theorem free_devices_twice_witness :
    is_chain two_handle_heap 8 [8, 16] = true ∧
      ∃ h1 t, free_devices 2 two_handle_heap 8 = some (h1, t) ∧
        free_devices 2 h1 8 = some (h1, []) ∧
        ∀ a ∈ [8, 16], ∃ d, h1 a = some d ∧
          d.device_path = none ∧ d.device = none ∧ d.device_fd = -1 :=
  ⟨by decide, free_devices_twice two_handle_heap 8 [8, 16] 2 (by decide) (by decide)⟩

theorem data_fd_set_fd (w : Nat) (fd : Int) (lo : -(2 ^ 31) ≤ fd) (hi : fd < 2 ^ 31) :
    data_fd (data_set_fd w fd) = fd := by
  unfold data_fd data_set_fd
  have h1 : (w / 2 ^ 32 * 2 ^ 32 + (fd % 2 ^ 32).toNat) % 2 ^ 32 = (fd % 2 ^ 32).toNat := by
    have hb : (fd % 2 ^ 32).toNat < 2 ^ 32 := by
      have := Int.emod_lt_of_pos fd (by norm_num : (0 : Int) < 2 ^ 32)
      have := Int.emod_nonneg fd (by norm_num : (2 ^ 32 : Int) ≠ 0)
      omega
    rw [Nat.add_comm, Nat.add_mul_mod_self_right, Nat.mod_eq_of_lt hb]
  rw [h1]
  have h2 : ((fd % 2 ^ 32).toNat : Int) = fd % 2 ^ 32 :=
    Int.toNat_of_nonneg (Int.emod_nonneg fd (by norm_num))
  norm_num at lo hi h2 ⊢
  split_ifs with hlt <;> omega

theorem control_event_is_termination (stack : Nat) (fd : Int) (lo : -(2 ^ 31) ≤ fd)
    (hi : fd < 2 ^ 31) : is_termination_request (epoll_add stack fd 0) fd = true := by
  simp [is_termination_request, epoll_add, data_fd_set_fd stack fd lo hi]

theorem device_event_collides (stack : Nat) (fd : Int) (ptr : Nat) (hp : ptr ≠ 0) :
    is_termination_request (epoll_add stack fd ptr) (data_fd ptr) = true := by
  simp [is_termination_request, epoll_add, hp]

theorem create_path_bytes (h : Heap) (malloc_d : Nat) (malloc_path : Bool) (path : String)
    (hd : malloc_d ≠ 0) (hl : 1 ≤ path.utf8ByteSize) :
    ∃ c, create h malloc_d malloc_path path = some c ∧
      c.path_bytes = some (path.utf8ByteSize - 1) := by
  cases malloc_path <;> simp [create, strlen_at, hd, hl]

theorem create_then_free_device (h : Heap) (malloc_d : Nat) (path : String) (c : CreateResult)
    (e : create h malloc_d true path = some c) (hrc : c.rc = 0) :
    ∃ d, c.heap c.d = some d ∧ d.device_fd = 0 ∧ Action.close 0 ∈ (free_device d).2 := by
  unfold create at e
  by_cases h0 : malloc_d = 0
  · rw [if_pos h0] at e
    simp only [Option.some.injEq] at e
    rw [← e] at hrc
    simp at hrc
  · rw [if_neg h0] at e
    cases hs : strlen_at path 1 with
    | none => rw [hs] at e; simp at e
    | some n =>
      rw [hs] at e
      simp only [Bool.true_eq_false, if_false, Option.some.injEq] at e
      rw [← e]
      exact ⟨_, Heap.set_same _ _ _, rfl, by simp [free_device]⟩

theorem main_epoll_create_failure :
    (main 2 one_device_heap one_device_args { run_world 5 with epoll_create1 := -1 } []).map
        (fun r => (r.status, r.trace)) =
      some (some 1, [Action.epoll_create1 (-1), Action.cleanup,
        Action.free_path "/dev/input/event2", Action.close 0, Action.exit 1]) := by
  decide

theorem main_control_setup_failure :
    (main 2 one_device_heap one_device_args (run_world (-1)) []).map
        (fun r => (r.status, r.trace)) =
      some (some 1,
        [Action.epoll_create1 3,
         Action.open_device (some "/dev/input/event2") 4,
         Action.libevdev_new_from_fd 4 0,
         Action.epoll_ctl_add 3 4 0x560000000010 0,
         Action.libevdev_grab (some 4096) 0,
         Action.init_device 0x560000000010 0,
         Action.signalfd (-1),
         Action.block_signals (-1),
         Action.cleanup,
         Action.free_path "/dev/input/event2",
         Action.libevdev_free 4096,
         Action.close 4,
         Action.close 3,
         Action.exit 1]) := by
  decide

theorem main_termination_request :
    (main 2 one_device_heap one_device_args (run_world 5)
        [WaitResult.ready [{ fd := 4, decode := key_press_then_no_data }],
         WaitResult.ready [{ fd := 5, decode := [] }]]).map (fun r => (r.status, r.trace)) =
      some (some 1,
        [Action.epoll_create1 3,
         Action.open_device (some "/dev/input/event2") 4,
         Action.libevdev_new_from_fd 4 0,
         Action.epoll_ctl_add 3 4 0x560000000010 0,
         Action.libevdev_grab (some 4096) 0,
         Action.init_device 0x560000000010 0,
         Action.signalfd 5,
         Action.sigprocmask 0,
         Action.epoll_ctl_add 3 5 5 0,
         Action.block_signals 5,
         Action.epoll_wait 1,
         Action.next_event 0x560000000010
           { flags := [ReadFlag.NORMAL, ReadFlag.NORMAL],
             out := [Output.event (some { type := 1, code := 30, value := 1 }),
                     Output.event (some { type := 1, code := 30, value := 1 })],
             ret := 0 },
         Action.epoll_wait 1,
         Action.cleanup,
         Action.free_path "/dev/input/event2",
         Action.libevdev_free 4096,
         Action.close 4,
         Action.close 3,
         Action.close 5,
         Action.exit 1]) := by
  decide

theorem main_epoll_wait_failure :
    (main 2 one_device_heap one_device_args (run_world 5) [WaitResult.error]).map
        (fun r => (r.status, r.trace)) =
      some (some 1,
        [Action.epoll_create1 3,
         Action.open_device (some "/dev/input/event2") 4,
         Action.libevdev_new_from_fd 4 0,
         Action.epoll_ctl_add 3 4 0x560000000010 0,
         Action.libevdev_grab (some 4096) 0,
         Action.init_device 0x560000000010 0,
         Action.signalfd 5,
         Action.sigprocmask 0,
         Action.epoll_ctl_add 3 5 5 0,
         Action.block_signals 5,
         Action.epoll_wait (-1),
         Action.cleanup,
         Action.free_path "/dev/input/event2",
         Action.libevdev_free 4096,
         Action.close 4,
         Action.close 3,
         Action.close 5,
         Action.exit 1]) := by
  decide

theorem main_empty_registry :
    (main 0 Heap.empty { verbose := false, no_grab := false, head := 0 } (run_world 5) []).map
        (fun r => (r.status, r.trace)) = some (some 0, [Action.epoll_create1 3]) := by
  decide

end Evdevgrab
